import Mathlib

/-!
Verification model of the SCUMM-AI game session core: the state machine in
App.tsx (handleAction, handleStartGame, sanitizeInventory, normalizeLocKey)
and the generative-service layer (cleanJsonOutput, tryParseJSON,
mapParsedResponse, generateGameResponse, generateInitialGameWorld,
generateSceneImage, sanitizeVisualPrompt). External service calls are
abstracted by oracles giving the outcome of each network request; everything
else is translated from the source. Strings are processed as character lists.
-/

namespace Scumm

/-- The JavaScript regex whitespace class, as used by trim and the \s class. -/
def jsSpace (c : Char) : Bool :=
  c = ' ' ∨ c = '\t' ∨ c = '\n' ∨ c = '\r' ∨ c = '\x0b' ∨ c = '\x0c' ∨
  c = ' ' ∨ c = ' ' ∨ (' ' ≤ c ∧ c ≤ ' ') ∨
  c = ' ' ∨ c = ' ' ∨ c = ' ' ∨ c = ' ' ∨
  c = '　' ∨ c = '﻿'

/-- Line-terminator characters, which the regex dot does not match. -/
def jsNewline (c : Char) : Bool :=
  c = '\n' ∨ c = '\r' ∨ c = ' ' ∨ c = ' '

/-- The regex word class \w: ASCII letters, digits and the low line. -/
def isWordChar (c : Char) : Bool :=
  ('a' ≤ c ∧ c ≤ 'z') ∨ ('A' ≤ c ∧ c ≤ 'Z') ∨ ('0' ≤ c ∧ c ≤ '9') ∨ c = '_'

/-- Hexadecimal digits under the case-insensitive flag: [a-f0-9] with i. -/
def isHexChar (c : Char) : Bool :=
  ('a' ≤ c ∧ c ≤ 'f') ∨ ('A' ≤ c ∧ c ≤ 'F') ∨ ('0' ≤ c ∧ c ≤ '9')

def isDigitChar (c : Char) : Bool := '0' ≤ c ∧ c ≤ '9'

/-- ASCII lower-casing of one character, as String.prototype.toLowerCase
acts on the ASCII range. -/
def asciiLower (c : Char) : Char :=
  if 'A' ≤ c ∧ c ≤ 'Z' then Char.ofNat (c.toNat + 32) else c

/-- ASCII upper-casing of one character, as String.prototype.toUpperCase
acts on the ASCII range. -/
def asciiUpper (c : Char) : Char :=
  if 'a' ≤ c ∧ c ≤ 'z' then Char.ofNat (c.toNat - 32) else c

/-- Case-insensitive character comparison, as the regex i flag compares. -/
def ciEq (a b : Char) : Bool := asciiLower a = asciiLower b

def trimLeftL (l : List Char) : List Char := l.dropWhile jsSpace

/-- String.prototype.trim over a character list. -/
def jsTrimL (l : List Char) : List Char :=
  ((l.dropWhile jsSpace).reverse.dropWhile jsSpace).reverse

/-- String.prototype.trim. -/
def jsTrim (s : String) : String := String.mk (jsTrimL s.data)

/-- JavaScript logical-or defaulting on strings: the empty string is falsy. -/
def jsOr (a d : String) : String := if a = "" then d else a

/-- Index of the first occurrence of a character (String.prototype.indexOf). -/
def firstIdx (l : List Char) (c : Char) : Option Nat := l.findIdx? (· = c)

/-- Index of the last occurrence of a character (String.prototype.lastIndexOf). -/
def lastIdx (l : List Char) (c : Char) : Option Nat :=
  match l.reverse.findIdx? (· = c) with
  | some k => some (l.length - 1 - k)
  | none => none

/-- String.prototype.substring over a list: the smaller argument is the start,
as the JavaScript method swaps its arguments when given in reverse order. -/
def jsSubstring (l : List Char) (a b : Nat) : List Char :=
  (l.take (max a b)).drop (min a b)

/-- Does the list have a case-insensitive prefix equal to the pattern. -/
def ciStartsWith : List Char → List Char → Bool
  | [], _ => true
  | _ :: _, [] => false
  | p :: ps, c :: cs => ciEq p c && ciStartsWith ps cs

/-- Exact prefix test over character lists (String.prototype.startsWith). -/
def startsWithL : List Char → List Char → Bool
  | [], _ => true
  | _ :: _, [] => false
  | p :: ps, c :: cs => p = c && startsWithL ps cs

/-- Is the last character of the list the given one (String.prototype.endsWith
with a one-character argument). -/
def lastIs (l : List Char) (c : Char) : Bool :=
  match l.getLast? with
  | some d => d = c
  | none => false

end Scumm
namespace Scumm

/-- A JSON document as produced by JSON.parse; number values keep their
source lexeme, which no consumer in this program inspects. -/
inductive Json where
  | null
  | bool (b : Bool)
  | num (lexeme : String)
  | str (s : String)
  | arr (elems : List Json)
  | obj (fields : List (String × Json))

/-- The whitespace JSON.parse skips between tokens. -/
def jsonWs (c : Char) : Bool := c = ' ' ∨ c = '\t' ∨ c = '\n' ∨ c = '\r'

def skipWs (l : List Char) : List Char := l.dropWhile jsonWs

def hexVal (c : Char) : Option Nat :=
  if '0' ≤ c ∧ c ≤ '9' then some (c.toNat - '0'.toNat)
  else if 'a' ≤ c ∧ c ≤ 'f' then some (c.toNat - 'a'.toNat + 10)
  else if 'A' ≤ c ∧ c ≤ 'F' then some (c.toNat - 'A'.toNat + 10)
  else none

/-- Body of a JSON string after its opening quote: returns the decoded
content and the input after the closing quote, or none when the string is
unterminated or contains an invalid escape or a raw control character. -/
def parseStrBody : List Char → Option (List Char × List Char)
  | [] => none
  | '"' :: rest => some ([], rest)
  | '\\' :: 'u' :: a :: b :: c :: d :: rest =>
    match hexVal a, hexVal b, hexVal c, hexVal d with
    | some va, some vb, some vc, some vd =>
      match parseStrBody rest with
      | some (content, rem) =>
        some (Char.ofNat (((va * 16 + vb) * 16 + vc) * 16 + vd) :: content, rem)
      | none => none
    | _, _, _, _ => none
  | '\\' :: e :: rest =>
    let dec : Option Char :=
      if e = '"' then some '"' else if e = '\\' then some '\\'
      else if e = '/' then some '/' else if e = 'n' then some '\n'
      else if e = 't' then some '\t' else if e = 'r' then some '\r'
      else if e = 'b' then some '\x08' else if e = 'f' then some '\x0c'
      else none
    match dec with
    | some ch =>
      match parseStrBody rest with
      | some (content, rem) => some (ch :: content, rem)
      | none => none
    | none => none
  | c :: rest =>
    if c.toNat < 32 then none
    else
      match parseStrBody rest with
      | some (content, rem) => some (c :: content, rem)
      | none => none

def takeDigits (l : List Char) : List Char × List Char :=
  (l.takeWhile isDigitChar, l.dropWhile isDigitChar)

/-- A JSON number token: minus sign, integer part, optional fraction and
exponent; the lexeme is kept verbatim. -/
def parseNum (l : List Char) : Option (List Char × List Char) :=
  let (sgn, l1) := match l with | '-' :: r => (['-'], r) | _ => (([] : List Char), l)
  let (intDs, l2) := takeDigits l1
  match intDs with
  | [] => none
  | d0 :: ds =>
    if d0 = '0' ∧ ds ≠ [] then none
    else
      let fracPart : Option (List Char × List Char) :=
        match l2 with
        | '.' :: r =>
          let (fds, r2) := takeDigits r
          if fds = [] then none else some ('.' :: fds, r2)
        | _ => some (([] : List Char), l2)
      match fracPart with
      | none => none
      | some (fds, l3) =>
        match l3 with
        | e :: r =>
          if e = 'e' ∨ e = 'E' then
            let (esgn, r1) := match r with
              | '+' :: r2 => (['+'], r2) | '-' :: r2 => (['-'], r2)
              | _ => (([] : List Char), r)
            let (eds, r2) := takeDigits r1
            if eds = [] then none
            else some (sgn ++ intDs ++ fds ++ e :: esgn ++ eds, r2)
          else some (sgn ++ intDs ++ fds, l3)
        | [] => some (sgn ++ intDs ++ fds, l3)

mutual

/-- One step of JSON.parse, fuel-indexed so every definition is structural.
parseMembersF and parseElemsF expect their input after the opening bracket
and any already-consumed separator. -/
def parseValueF : Nat → List Char → Option (Json × List Char)
  | 0, _ => none
  | fuel + 1, l =>
    match skipWs l with
    | [] => none
    | '"' :: rest =>
      match parseStrBody rest with
      | some (content, rem) => some (.str (String.mk content), rem)
      | none => none
    | '\x7b' :: rest => parseMembersF fuel rest true
    | '[' :: rest => parseElemsF fuel rest true
    | 't' :: 'r' :: 'u' :: 'e' :: rest => some (.bool true, rest)
    | 'f' :: 'a' :: 'l' :: 's' :: 'e' :: rest => some (.bool false, rest)
    | 'n' :: 'u' :: 'l' :: 'l' :: rest => some (.null, rest)
    | c :: rest =>
      if c = '-' ∨ isDigitChar c then
        match parseNum (c :: rest) with
        | some (lex, rem) => some (.num (String.mk lex), rem)
        | none => none
      else none

/-- Members of an object after the opening brace; the flag marks whether the
empty object is still possible (true only before the first member). -/
def parseMembersF : Nat → List Char → Bool → Option (Json × List Char)
  | 0, _, _ => none
  | fuel + 1, l, first =>
    match skipWs l with
    | '\x7d' :: rest => if first then some (.obj [], rest) else none
    | '"' :: rest =>
      match parseStrBody rest with
      | some (key, rem) =>
        match skipWs rem with
        | ':' :: rem2 =>
          match parseValueF fuel rem2 with
          | some (v, rem3) =>
            match skipWs rem3 with
            | ',' :: rem4 =>
              match parseMembersF fuel rem4 false with
              | some (.obj fs, rem5) => some (.obj ((String.mk key, v) :: fs), rem5)
              | _ => none
            | '\x7d' :: rem4 => some (.obj [(String.mk key, v)], rem4)
            | _ => none
          | none => none
        | _ => none
      | none => none
    | _ => none

/-- Elements of an array after the opening bracket. -/
def parseElemsF : Nat → List Char → Bool → Option (Json × List Char)
  | 0, _, _ => none
  | fuel + 1, l, first =>
    match skipWs l with
    | ']' :: rest => if first then some (.arr [], rest) else none
    | _ =>
      match parseValueF fuel l with
      | some (v, rem) =>
        match skipWs rem with
        | ',' :: rem2 =>
          match parseElemsF fuel rem2 false with
          | some (.arr es, rem3) => some (.arr (v :: es), rem3)
          | _ => none
        | ']' :: rem2 => some (.arr [v], rem2)
        | _ => none
      | none => none

end

/-- JSON.parse: a full-input parse of one document, or none where the
JavaScript function throws. The fuel is amply above the maximal number of
recursive steps, each of which consumes input. -/
def JSONparse (s : String) : Option Json :=
  let cs := s.data
  match parseValueF (4 * cs.length + 16) cs with
  | some (j, rest) => if skipWs rest = [] then some j else none
  | none => none

end Scumm
namespace Scumm

/-- Helper from the service layer: strip the data-image prefix from a data
URL before it is sent as inline bytes. -/
def cleanBase64 (dataUrl : String) : String :=
  let pres := ["data:image/png;base64,", "data:image/jpeg;base64,", "data:image/jpg;base64,"]
  match pres.find? (fun p => startsWithL p.data dataUrl.data) with
  | some p => String.mk (dataUrl.data.drop p.length)
  | none => dataUrl

/-- Helper to clean JSON output using substring extraction: trim, then keep
the substring from the first opening brace to the last closing brace when
both exist. -/
def cleanJsonOutput (text : String) : String :=
  let cleaned := jsTrim text
  let cs := cleaned.data
  match firstIdx cs '\x7b', lastIdx cs '\x7d' with
  | some firstBrace, some lastBrace =>
    String.mk (jsSubstring cs firstBrace (lastBrace + 1))
  | _, _ => cleaned

/-- Robust JSON parse with auto-repair for truncated responses: direct
parse, then append a closing brace, then a closing bracket and brace, then
close an open string; none when every attempt fails. -/
def tryParseJSON (jsonString : String) : Option Json :=
  match JSONparse jsonString with
  | some j => some j
  | none =>
    match JSONparse (jsonString ++ "\x7d") with
    | some j => some j
    | none =>
      match JSONparse (jsonString ++ "]\x7d") with
      | some j => some j
      | none =>
        if lastIs (jsTrimL jsonString.data) '"' then
          JSONparse (jsonString ++ "\x7d")
        else
          JSONparse (jsonString ++ "\"\x7d")

end Scumm
namespace Scumm

structure GameSettings where
  world : String
  startLocation : String
  artStyle : String
  objective : String
  tone : String
deriving DecidableEq, Repr

structure VisitedLocation where
  imageUrl : String
  visualPrompt : String
deriving DecidableEq, Repr

structure InventoryItem where
  name : String
  description : String
deriving DecidableEq, Repr

inductive Role where
  | user
  | model
deriving DecidableEq, Repr

structure HistoryEntry where
  role : Role
  content : String
deriving DecidableEq, Repr

structure GameState where
  settings : GameSettings
  location : String
  narrative : String
  inventory : List InventoryItem
  availableExits : List String
  visualDescription : String
  imageUrl : Option String
  loadingStatus : Option String
  history : List HistoryEntry
  knownLocations : List (String × VisitedLocation)
deriving DecidableEq, Repr

structure GameResponse where
  narrative : String
  location : String
  visualPrompt : String
  inventory : List InventoryItem
  keyElements : List String
  availableExits : List String
  visualChanged : Bool
deriving DecidableEq, Repr

/-- Lookup in the knownLocations record, modelled as an association list
with at most one entry per key. -/
def lookupLoc : List (String × VisitedLocation) → String → Option VisitedLocation
  | [], _ => none
  | p :: m, k => if p.1 = k then some p.2 else lookupLoc m k

/-- Upsert into the knownLocations record: overwrite in place when the key
exists, append otherwise, as the object spread with a computed key does. -/
def insertLoc (m : List (String × VisitedLocation)) (k : String)
    (v : VisitedLocation) : List (String × VisitedLocation) :=
  if (lookupLoc m k).isSome then
    m.map (fun p => if p.1 = k then (k, v) else p)
  else m ++ [(k, v)]

/-- Map key normalization to improve cache hits, from App.tsx: trim then
lower-case. -/
def normalizeLocKey (location : String) : String :=
  String.mk ((jsTrimL location.data).map asciiLower)

/-- Step 1a of the sanitizer: replace underscores with spaces. -/
def replaceUnderscores (l : List Char) : List Char :=
  l.map (fun c => if c = '_' then ' ' else c)

/-- Does the ERROR-tail pattern match the whole suffix beginning here:
optional whitespace, a hyphen, optional whitespace, the word ERROR in any
case, then whitespace and a newline-free remainder up to the end. -/
def errTailMatch (l : List Char) : Bool :=
  match trimLeftL l with
  | '-' :: r =>
    let r2 := trimLeftL r
    if ciStartsWith "ERROR".data r2 then
      (trimLeftL (r2.drop 5)).all (fun c => !(jsNewline c))
    else false
  | _ => false

/-- Step 1b: delete from the leftmost position where the ERROR-tail pattern
matches through to the end of the name. -/
def errCut : List Char → List Char
  | [] => []
  | c :: cs => if errTailMatch (c :: cs) then [] else c :: errCut cs

/-- Step 1c worker: delete every maximal word-character run that consists
solely of hexadecimal digits and has length at least eight, which is what
the anchored hex-token regex with the global flag removes. -/
def remHexAux : Nat → List Char → List Char
  | 0, l => l
  | _ + 1, [] => []
  | fuel + 1, c :: cs =>
    if isWordChar c then
      let run := List.takeWhile isWordChar (c :: cs)
      let rest := List.dropWhile isWordChar (c :: cs)
      (if 8 ≤ run.length ∧ run.all isHexChar then [] else run) ++ remHexAux fuel rest
    else c :: remHexAux fuel cs

def remHex (l : List Char) : List Char := remHexAux l.length l

/-- Length of a version-number match v digits, optionally dot digits,
beginning at the head of the list; none when there is no match here. -/
def verNumLen (l : List Char) : Option Nat :=
  match l with
  | v :: r =>
    if v = 'v' ∨ v = 'V' then
      let ds := r.takeWhile isDigitChar
      if ds = [] then none
      else
        match r.drop ds.length with
        | '.' :: r3 =>
          let fs := r3.takeWhile isDigitChar
          if fs = [] then some (1 + ds.length)
          else some (1 + ds.length + 1 + fs.length)
        | _ => some (1 + ds.length)
    else none
  | [] => none

/-- Step 1d worker: remove every leftmost non-overlapping occurrence of
x86, x64 or a v-version token, case-insensitively. -/
def remVerAux : Nat → List Char → List Char
  | 0, l => l
  | _ + 1, [] => []
  | fuel + 1, c :: cs =>
    if ciStartsWith "x86".data (c :: cs) then remVerAux fuel ((c :: cs).drop 3)
    else if ciStartsWith "x64".data (c :: cs) then remVerAux fuel ((c :: cs).drop 3)
    else
      match verNumLen (c :: cs) with
      | some k => remVerAux fuel ((c :: cs).drop k)
      | none => c :: remVerAux fuel cs

def remVer (l : List Char) : List Char := remVerAux l.length l

/-- Step 1e worker: collapse each maximal whitespace run to a single space;
the flag records whether the previous character was whitespace. -/
def collapseWsAux : List Char → Bool → List Char
  | [], _ => []
  | c :: cs, inRun =>
    if jsSpace c then
      if inRun then collapseWsAux cs true else ' ' :: collapseWsAux cs true
    else c :: collapseWsAux cs false

def collapseWs (l : List Char) : List Char := collapseWsAux l false

/-- The chained replace calls of the sanitizer on one name, through the
final trim. -/
def scrubName (l : List Char) : List Char :=
  jsTrimL (collapseWs (remVer (remHex (errCut (replaceUnderscores l)))))

/-- Step 2 of the sanitizer: capitalize the first letter. -/
def capitalizeFirst : List Char → List Char
  | [] => []
  | c :: cs => asciiUpper c :: cs

def defaultDescription : String :=
  "Un objeto tan misterioso que la propia realidad (o la IA) se niega a describirlo. Huele a ozono."

/-- Aggressive sanitization for inventory items, from App.tsx: scrub the
name, capitalize, truncate past 22 characters to 20 plus an ellipsis
marker, and substitute fixed placeholders for an empty name or a missing
description. -/
def sanitizeInventory (items : List InventoryItem) : List InventoryItem :=
  items.map (fun item =>
    let clean1 := capitalizeFirst (scrubName item.name.data)
    let clean2 := if 22 < clean1.length then clean1.take 20 ++ ['.', '.'] else clean1
    { name := if clean2 = [] then "Objeto Raro" else String.mk clean2,
      description := jsOr item.description defaultDescription })

end Scumm
namespace Scumm

/-- Join with a separator (Array.prototype.join). -/
def joinSep (sep : String) : List String → String
  | [] => ""
  | [x] => x
  | x :: xs => x ++ sep ++ joinSep sep xs

/-- Worker for global case-insensitive alternation replacement: at each
position the first alternative that matches is replaced and scanning
resumes after it. -/
def replaceAllCIAux : Nat → List (List Char) → List Char → List Char → List Char
  | 0, _, _, l => l
  | _ + 1, _, _, [] => []
  | fuel + 1, pats, repl, c :: cs =>
    match pats.find? (fun p => ciStartsWith p (c :: cs)) with
    | some p => repl ++ replaceAllCIAux fuel pats repl ((c :: cs).drop p.length)
    | none => c :: replaceAllCIAux fuel pats repl cs

def replaceAllCI (pats : List String) (repl : String) (s : String) : String :=
  String.mk (replaceAllCIAux s.data.length (pats.map String.data) repl.data s.data)

/-- Helper to sanitize visual prompts against safety filters, from the
service layer: six global case-insensitive substitution passes. -/
def sanitizeVisualPrompt (text : String) : String :=
  replaceAllCI ["kill", "murder", "dead"] "defeated"
    (replaceAllCI ["blood", "gore"] "red liquid"
      (replaceAllCI ["brand", "logo"] "symbol"
        (replaceAllCI ["coca cola", "pepsi"] "soda"
          (replaceAllCI ["alcohol", "wine", "vino", "beer", "cerveza"] "beverage"
            (replaceAllCI ["kalimotxo", "calimocho"] "dark red potion" text)))))

/-- Worker for the greedy delimiter-pair removal regex: on an opening
character, the longest newline-free stretch ending at a closing character
is removed together with the delimiters; scanning resumes after it. -/
def remDelimAux : Nat → Char → Char → List Char → List Char
  | 0, _, _, l => l
  | _ + 1, _, _, [] => []
  | fuel + 1, o, cl, c :: cs =>
    if c = o then
      match lastIdx (cs.takeWhile (fun x => !(jsNewline x))) cl with
      | some j => remDelimAux fuel o cl (cs.drop (j + 1))
      | none => c :: remDelimAux fuel o cl cs
    else c :: remDelimAux fuel o cl cs

def remDelim (o cl : Char) (l : List Char) : List Char := remDelimAux l.length o cl l

/-- The key-element digest sent to image generation: strip parenthesised
and bracketed annotations, trim, drop empties, join with commas. -/
def cleanElementsOf (keyElements : List String) : String :=
  joinSep ", "
    ((keyElements.map (fun el =>
      String.mk (jsTrimL (remDelim '[' ']' (remDelim '(' ')' el.data))))).filter
      (fun el => el.length > 0))

/-- Outcome function for one image request: the prompt text and optional
inline reference bytes determine success with base64 data, or failure. -/
def ImageOracle : Type := String → Option String → Option String

def imagePrefixStr : String := "data:image/png;base64,"

/-- The full-fidelity image prompt template of generateSceneImage. -/
def fullImagePrompt (visualPrompt style : String) (keyElements : List String) : String :=
  "\n    " ++ style ++ ". Retro video game screenshot. \n    Scene: " ++
  sanitizeVisualPrompt visualPrompt ++ ". \n    Key Elements visible: " ++
  cleanElementsOf keyElements ++
  ".\n    NO TEXT. NO UI. NO LABELS. NO SPEECH BUBBLES.\n    Scale: Realistic relative to character.\n    Diegetic elements only.\n  "

/-- The simplified retry prompt of generateSceneImage: the style and the
first sentence of the sanitized visual prompt. -/
def simpleImagePrompt (visualPrompt style : String) : String :=
  style ++ ". " ++
  String.mk ((sanitizeVisualPrompt visualPrompt).data.takeWhile (· ≠ '.')) ++ ". NO TEXT."

/-- Image generation with its recovery cascade, from the service layer: a
full-fidelity prompt with the optional reference image first, then a
simplified prompt with no reference, then the empty string when both
requests fail. -/
def generateSceneImage (visualPrompt style : String) (keyElements : List String)
    (referenceImageBase64 : Option String) (oracle : ImageOracle) : String :=
  match oracle (fullImagePrompt visualPrompt style keyElements)
      (referenceImageBase64.map cleanBase64) with
  | some b => imagePrefixStr ++ b
  | none =>
    match oracle (simpleImagePrompt visualPrompt style) none with
    | some b => imagePrefixStr ++ b
    | none => ""

/-- Field access on a decoded document; JSON.parse keeps the last duplicate
of a key, hence the reversed search. -/
def getField (j : Json) (key : String) : Option Json :=
  match j with
  | .obj fs => (fs.reverse.find? (fun p => p.1 = key)).map (fun p => p.2)
  | _ => none

/-- A string field of a decoded document; fields of another type are read
as absent, as the response schema makes them strings. -/
def getStr (j : Json) (key : String) : String :=
  match getField j key with
  | some (.str s) => s
  | _ => ""

def getStrList (j : Json) (key : String) : List String :=
  match getField j key with
  | some (.arr es) => es.map (fun e => match e with | .str s => s | _ => "")
  | _ => []

def getInventory (j : Json) : List InventoryItem :=
  match getField j "inventory" with
  | some (.arr es) =>
    es.map (fun e => { name := getStr e "name", description := getStr e "description" })
  | _ => []

/-- mapParsedResponse from the service layer. Every field is defaulted
through the JavaScript or; the visual-changed flag is the literal true in
the source, whatever the reply said. -/
def mapParsedResponse (parsed : Json) (settings : GameSettings) : GameResponse :=
  { narrative := jsOr (getStr parsed "narrative") "Comienza la aventura...",
    location := jsOr (getStr parsed "location") settings.startLocation,
    visualPrompt := jsOr (getStr parsed "visualPrompt") ("Scene of " ++ settings.startLocation),
    inventory := getInventory parsed,
    keyElements := getStrList parsed "keyElements",
    availableExits := getStrList parsed "availableExits",
    visualChanged := true }

/-- Outcome of one structured-text service call after the retry wrapper:
error when the call still rejects, otherwise the reply text, which itself
may be absent. -/
def SvcResult : Type := Except Unit (Option String)

/-- The soft-error reply of generateGameResponse, keeping the game running
on an undecodable reply: current location, visual description, inventory
and exits, a fixed glitch narrative, and no visual change. -/
def softErrorResponse (currentState : GameState) : GameResponse :=
  { narrative := "La realidad parpadea. Intenta esa acción de nuevo.",
    location := currentState.location,
    visualPrompt := currentState.visualDescription,
    inventory := currentState.inventory,
    keyElements := [],
    availableExits := currentState.availableExits,
    visualChanged := false }

/-- JavaScript truthiness of a decoded document: null, false, a numeric
zero and the empty string are falsy; every array and object is truthy.
A number is zero exactly when its lexeme holds no nonzero digit before
the exponent marker. -/
def jsonTruthy : Json → Bool
  | .null => false
  | .bool b => b
  | .num lex =>
    !((lex.data.takeWhile (fun c => c ≠ 'e' ∧ c ≠ 'E')).all
      (fun c => c = '0' ∨ c = '-' ∨ c = '.'))
  | .str s => s ≠ ""
  | .arr _ => true
  | .obj _ => true

/-- The reply decoding shared by both structured endpoints: absent or
empty reply text defaults to a brace pair through the JavaScript or, the
text is cleaned and repaired, and a falsy decoded document counts as no
document, as the truthiness check on the parse result does. -/
def decodeReplyText (t : Option String) : Option Json :=
  match tryParseJSON (cleanJsonOutput (jsOr (t.getD "") "\x7b\x7d")) with
  | some parsed => if jsonTruthy parsed then some parsed else none
  | none => none

/-- generateGameResponse from the service layer: decode the reply through
the repair pipeline; an undecodable or falsy reply degrades to the
soft-error response built from the current state, while a rejected call
propagates. The action text and grounding image only shape the request,
not the decoding, so they do not appear here. -/
def generateGameResponse (currentState : GameState) (svc : SvcResult) :
    Except Unit GameResponse :=
  match svc with
  | .error e => .error e
  | .ok t =>
    match decodeReplyText t with
    | some parsed => .ok (mapParsedResponse parsed currentState.settings)
    | none => .ok (softErrorResponse currentState)

/-- The ultimate fallback world of generateInitialGameWorld, synthesized
from the settings alone. -/
def fallbackWorld (settings : GameSettings) : GameResponse :=
  { narrative := "El sistema se ha reiniciado tras una inestabilidad cuántica. Estás en el punto de inicio.",
    location := settings.startLocation,
    visualPrompt := "A pixel art scene of " ++ settings.startLocation ++ " in " ++ settings.artStyle ++ " style.",
    inventory := [],
    keyElements := [],
    availableExits := [],
    visualChanged := true }

/-- One tier attempt of generateInitialGameWorld: none when the call
rejects or its reply is still undecodable, or decodes to a falsy
document, after repair. -/
def tierDecode (settings : GameSettings) (r : SvcResult) : Option GameResponse :=
  match r with
  | .error _ => none
  | .ok t =>
    match decodeReplyText t with
    | some parsed => some (mapParsedResponse parsed settings)
    | none => none

/-- generateInitialGameWorld from the service layer: the high tier, then on
any failure, including a reply still undecodable after repair, the fast
tier, then the synthesized minimal world. Total: it never propagates a
failure. -/
def generateInitialGameWorld (settings : GameSettings) (tier1 tier2 : SvcResult) :
    GameResponse :=
  match tierDecode settings tier1 with
  | some r => r
  | none =>
    match tierDecode settings tier2 with
    | some r => r
    | none => fallbackWorld settings

end Scumm
namespace Scumm

/-- Result of one handleAction invocation: the committed state, whether the
gameplay text endpoint was called, and how many generateSceneImage calls
were issued. -/
structure TurnOutcome where
  state : GameState
  turnCalled : Bool
  imageGenCalls : Nat
deriving DecidableEq, Repr

def analyzingMsg : String := "ANALIZANDO ACCIÓN..."

def overloadNarrative : String :=
  "El sistema se ha sobrecargado momentáneamente. Intenta otra acción."

def glitchNarrative : String := "La realidad parpadea. Intenta esa acción de nuevo."

/-- The optimistic update of handleAction: mark the busy phase and append
the player action to history before any reply is known. -/
def optimisticState (s : GameState) (action : String) : GameState :=
  { s with loadingStatus := some analyzingMsg,
           history := s.history ++ [⟨.user, action⟩] }

/-- The reference image handed to a same-location visual edit: the current
image, with null and the empty string both collapsing to no reference by
the JavaScript or with undefined. -/
def editReference (s : GameState) : Option String :=
  match s.imageUrl with
  | some u => if u = "" then none else some u
  | none => none

/-- The success branch of handleAction given the decoded reply: the visual
branch decision (location change with cache consultation, explicit visual
change, or neither), then the single commit. The inventory fallback of the
source cannot fire because every decoded reply carries an inventory array,
so the committed inventory is the sanitized reply inventory. -/
def applyTurn (s : GameState) (action : String) (response : GameResponse)
    (img : ImageOracle) : TurnOutcome :=
  let prev := optimisticState s action
  let hasChangedLocation := response.location ≠ s.location
  let locationKey := normalizeLocKey (jsOr response.location "unknown")
  let imageStep : Option String × Nat :=
    if hasChangedLocation then
      match lookupLoc s.knownLocations locationKey with
      | some cached => (some cached.imageUrl, 0)
      | none =>
        (some (generateSceneImage response.visualPrompt s.settings.artStyle
          response.keyElements none img), 1)
    else if response.visualChanged then
      (some (generateSceneImage response.visualPrompt s.settings.artStyle
        response.keyElements (editReference s) img), 1)
    else (s.imageUrl, 0)
  let newImageUrl := imageStep.1
  let newHistory0 := prev.history ++ [⟨.model, response.narrative⟩]
  let newHistory := if 20 < newHistory0.length then newHistory0.drop 5 else newHistory0
  let updatedKnownLocations :=
    insertLoc prev.knownLocations locationKey ⟨newImageUrl.getD "", response.visualPrompt⟩
  { state :=
      { prev with
        location := jsOr response.location prev.location,
        narrative := response.narrative,
        inventory := sanitizeInventory response.inventory,
        availableExits := response.availableExits,
        visualDescription := response.visualPrompt,
        imageUrl := newImageUrl,
        history := newHistory,
        knownLocations := updatedKnownLocations,
        loadingStatus := none },
    turnCalled := true,
    imageGenCalls := imageStep.2 }

/-- JavaScript truthiness of the loading status: absent and the empty
string are both falsy. -/
def statusTruthy (o : Option String) : Bool :=
  match o with
  | some m => m ≠ ""
  | none => false

/-- handleAction from App.tsx: the busy and blank-action gate, both sides
by JavaScript truthiness, the optimistic update, the service call, and
either the success commit or the catch-all soft failure that clears the
busy marker and swaps only the narrative. -/
def handleAction (s : GameState) (action : String) (svc : SvcResult)
    (img : ImageOracle) : TurnOutcome :=
  if statusTruthy s.loadingStatus ∨ jsTrim action = "" then ⟨s, false, 0⟩
  else
    match generateGameResponse s svc with
    | .error _ =>
      let prev := optimisticState s action
      { state := { prev with loadingStatus := none, narrative := overloadNarrative },
        turnCalled := true,
        imageGenCalls := 0 }
    | .ok response => applyTurn s action response img

/-- handleStartGame from App.tsx: the empty-field guard, world generation,
the first scene image, and the fresh session state whose cache seeds the
initial location. The catch branch of the source is unreachable because
both service wrappers are total, so the started state is always built. -/
def handleStartGame (inputWorld inputLocation inputStyle inputObjective inputTone : String)
    (tier1 tier2 : SvcResult) (img : ImageOracle) (s0 : GameState) : GameState :=
  if inputLocation = "" ∨ inputStyle = "" then s0
  else
    let newSettings : GameSettings :=
      ⟨inputWorld, inputLocation, inputStyle, inputObjective, inputTone⟩
    let initialWorld := generateInitialGameWorld newSettings tier1 tier2
    let imageBase64 := generateSceneImage initialWorld.visualPrompt
      newSettings.artStyle initialWorld.keyElements none img
    { settings := newSettings,
      location := jsOr initialWorld.location "Desconocido",
      narrative := initialWorld.narrative,
      inventory := sanitizeInventory initialWorld.inventory,
      availableExits := initialWorld.availableExits,
      visualDescription := initialWorld.visualPrompt,
      imageUrl := some imageBase64,
      loadingStatus := none,
      history := [⟨.model, initialWorld.narrative⟩],
      knownLocations :=
        [(normalizeLocKey (jsOr initialWorld.location "start"),
          ⟨imageBase64, initialWorld.visualPrompt⟩)] }

end Scumm
namespace Scumm

theorem underscore_notin_replaceUnderscores (l : List Char) :
    '_' ∉ replaceUnderscores l := by
  intro h
  rcases List.mem_map.mp h with ⟨c, _, hc⟩
  by_cases h1 : c = '_'
  · rw [if_pos h1] at hc
    exact absurd hc (by decide)
  · rw [if_neg h1] at hc
    exact h1 hc

theorem mem_of_mem_errCut {a : Char} : ∀ {l : List Char}, a ∈ errCut l → a ∈ l
  | [], h => by simpa [errCut] using h
  | c :: cs, h => by
    by_cases hm : errTailMatch (c :: cs)
    · rw [errCut, if_pos hm] at h
      exact absurd h (List.not_mem_nil a)
    · rw [errCut, if_neg hm] at h
      rcases List.mem_cons.mp h with h | h
      · exact h ▸ List.mem_cons_self c cs
      · exact List.mem_cons_of_mem c (mem_of_mem_errCut h)

theorem mem_of_mem_remHexAux {a : Char} :
    ∀ {n : Nat} {l : List Char}, a ∈ remHexAux n l → a ∈ l
  | 0, _, h => h
  | _ + 1, [], h => by simpa [remHexAux] using h
  | n + 1, c :: cs, h => by
    rw [remHexAux] at h
    by_cases hw : isWordChar c
    · rw [if_pos hw] at h
      rcases List.mem_append.mp h with h | h
      · have : a ∈ List.takeWhile isWordChar (c :: cs) := by
          split at h
          · exact absurd h (List.not_mem_nil a)
          · exact h
        exact (List.takeWhile_sublist isWordChar).mem this
      · exact (List.dropWhile_sublist isWordChar).mem (mem_of_mem_remHexAux h)
    · rw [if_neg hw] at h
      rcases List.mem_cons.mp h with h | h
      · exact h ▸ List.mem_cons_self c cs
      · exact List.mem_cons_of_mem c (mem_of_mem_remHexAux h)

theorem mem_of_mem_remVerAux {a : Char} :
    ∀ {n : Nat} {l : List Char}, a ∈ remVerAux n l → a ∈ l
  | 0, _, h => h
  | _ + 1, [], h => by simpa [remVerAux] using h
  | n + 1, c :: cs, h => by
    rw [remVerAux] at h
    by_cases h86 : ciStartsWith "x86".data (c :: cs) = true
    · rw [if_pos h86] at h
      exact (List.drop_sublist 3 (c :: cs)).mem (mem_of_mem_remVerAux h)
    · rw [if_neg h86] at h
      by_cases h64 : ciStartsWith "x64".data (c :: cs) = true
      · rw [if_pos h64] at h
        exact (List.drop_sublist 3 (c :: cs)).mem (mem_of_mem_remVerAux h)
      · rw [if_neg h64] at h
        rcases hv : verNumLen (c :: cs) with _ | k
        · rw [hv] at h
          rcases List.mem_cons.mp h with h | h
          · exact h ▸ List.mem_cons_self c cs
          · exact List.mem_cons_of_mem c (mem_of_mem_remVerAux h)
        · rw [hv] at h
          exact (List.drop_sublist k (c :: cs)).mem (mem_of_mem_remVerAux h)

theorem mem_of_mem_collapseWsAux {a : Char} :
    ∀ {l : List Char} {b : Bool}, a ∈ collapseWsAux l b → a ∈ l ∨ a = ' '
  | [], _, h => by simpa [collapseWsAux] using h
  | c :: cs, b, h => by
    rw [collapseWsAux] at h
    by_cases hs : jsSpace c = true
    · rw [if_pos hs] at h
      by_cases hb : b = true
      · rw [if_pos hb] at h
        rcases mem_of_mem_collapseWsAux h with h | h
        · exact Or.inl (List.mem_cons_of_mem c h)
        · exact Or.inr h
      · rw [if_neg hb] at h
        rcases List.mem_cons.mp h with h | h
        · exact Or.inr h
        · rcases mem_of_mem_collapseWsAux h with h | h
          · exact Or.inl (List.mem_cons_of_mem c h)
          · exact Or.inr h
    · rw [if_neg hs] at h
      rcases List.mem_cons.mp h with h | h
      · exact Or.inl (h ▸ List.mem_cons_self c cs)
      · rcases mem_of_mem_collapseWsAux h with h | h
        · exact Or.inl (List.mem_cons_of_mem c h)
        · exact Or.inr h

theorem mem_of_mem_jsTrimL {a : Char} {l : List Char} (h : a ∈ jsTrimL l) : a ∈ l := by
  unfold jsTrimL at h
  have h1 := List.mem_reverse.mp h
  have h2 := (List.dropWhile_sublist jsSpace).mem h1
  have h3 := List.mem_reverse.mp h2
  exact (List.dropWhile_sublist jsSpace).mem h3

theorem scrubName_no_underscore (l : List Char) : '_' ∉ scrubName l := by
  intro h
  have h1 := mem_of_mem_jsTrimL h
  rcases mem_of_mem_collapseWsAux h1 with h2 | h2
  · exact underscore_notin_replaceUnderscores l
      (mem_of_mem_errCut (mem_of_mem_remHexAux (mem_of_mem_remVerAux h2)))
  · exact absurd h2 (by decide)

theorem asciiUpper_eq_underscore {c : Char} (h : asciiUpper c = '_') : c = '_' := by
  unfold asciiUpper at h
  by_cases hc : 'a' ≤ c ∧ c ≤ 'z'
  · rw [if_pos hc] at h
    exfalso
    have ha : 97 ≤ c.toNat := hc.1
    have hb : c.toNat ≤ 122 := hc.2
    have hvalid : (c.toNat - 32).isValidChar := Or.inl (by omega)
    have hv : (Char.ofNat (c.toNat - 32)).toNat = c.toNat - 32 := by
      unfold Char.ofNat
      rw [dif_pos hvalid]
      rfl
    rw [h] at hv
    have h95 : ('_' : Char).toNat = 95 := by decide
    omega
  · rw [if_neg hc] at h
    exact h

theorem capitalizeFirst_no_underscore {l : List Char} (h : '_' ∉ l) :
    '_' ∉ capitalizeFirst l := by
  match l with
  | [] => simpa [capitalizeFirst] using h
  | c :: cs =>
    rw [capitalizeFirst]
    intro hmem
    rcases List.mem_cons.mp hmem with h1 | h1
    · have := asciiUpper_eq_underscore h1.symm
      exact h (this ▸ List.mem_cons_self c cs)
    · exact h (List.mem_cons_of_mem c h1)

theorem finalName_props (c1 : List Char) (hnu : '_' ∉ c1) :
    ∀ c2 : List Char, c2 = (if 22 < c1.length then c1.take 20 ++ ['.', '.'] else c1) →
    ∀ nm : String, nm = (if c2 = [] then "Objeto Raro" else String.mk c2) →
    nm ≠ "" ∧ nm.length ≤ 22 ∧ '_' ∉ nm.data := by
  intro c2 hc2 nm hnm
  have h2 : '_' ∉ c2 := by
    subst hc2
    by_cases hl : 22 < c1.length
    · rw [if_pos hl]
      intro hmem
      rcases List.mem_append.mp hmem with h3 | h3
      · exact hnu ((List.take_sublist 20 c1).mem h3)
      · exact absurd h3 (by decide)
    · rw [if_neg hl]
      exact hnu
  have hlen : c2.length ≤ 22 := by
    subst hc2
    by_cases hl : 22 < c1.length
    · rw [if_pos hl]
      rw [List.length_append, List.length_take]
      simp
    · rw [if_neg hl]
      omega
  by_cases hnil : c2 = []
  · subst hnm
    rw [if_pos hnil]
    exact ⟨by decide, by decide, by decide⟩
  · subst hnm
    rw [if_neg hnil]
    refine ⟨?_, ?_, h2⟩
    · intro hh
      exact hnil (congrArg String.data hh)
    · show c2.length ≤ 22
      exact hlen

set_option maxHeartbeats 1000000 in
/-- The three display-safety facts about one sanitized inventory item. -/
theorem mem_sanitizeInventory_props (items : List InventoryItem) (it : InventoryItem)
    (h : it ∈ sanitizeInventory items) :
    it.name ≠ "" ∧ it.name.length ≤ 22 ∧ '_' ∉ it.name.data := by
  rcases List.mem_map.mp h with ⟨src, _, rfl⟩
  exact finalName_props (capitalizeFirst (scrubName src.name.data))
    (capitalizeFirst_no_underscore (scrubName_no_underscore src.name.data))
    _ rfl _ rfl

end Scumm
namespace Scumm

theorem jsOr_ne (a d : String) (h : d ≠ "") : jsOr a d ≠ "" := by
  unfold jsOr
  split
  · exact h
  · assumption

theorem lookupLoc_map_overwrite (m : List (String × VisitedLocation)) (k q : String)
    (v : VisitedLocation) (hkq : q ≠ k) :
    lookupLoc (m.map (fun p => if p.1 = k then (k, v) else p)) q = lookupLoc m q := by
  induction m with
  | nil => rfl
  | cons p m ih =>
    rw [List.map_cons]
    by_cases hpk : p.1 = k
    · rw [if_pos hpk, lookupLoc, lookupLoc]
      have h1 : ¬ ((k, v).1 = q) := fun hh => hkq hh.symm
      have h2 : ¬ (p.1 = q) := fun hh => hkq (hpk ▸ hh).symm
      rw [if_neg h1, if_neg h2, ih]
    · rw [if_neg hpk, lookupLoc, lookupLoc, ih]

theorem lookupLoc_append_left (m1 m2 : List (String × VisitedLocation)) (q : String)
    (h : (lookupLoc m1 q).isSome) :
    lookupLoc (m1 ++ m2) q = lookupLoc m1 q := by
  induction m1 with
  | nil => simp [lookupLoc] at h
  | cons p m ih =>
    rw [List.cons_append, lookupLoc, lookupLoc]
    by_cases hp : p.1 = q
    · rw [if_pos hp, if_pos hp]
    · rw [if_neg hp, if_neg hp]
      rw [lookupLoc, if_neg hp] at h
      exact ih h

theorem lookupLoc_insertLoc_self (m : List (String × VisitedLocation)) (k : String)
    (v : VisitedLocation) : lookupLoc (insertLoc m k v) k = some v := by
  unfold insertLoc
  by_cases hf : (lookupLoc m k).isSome
  · rw [if_pos hf]
    induction m with
    | nil => simp [lookupLoc] at hf
    | cons p m ih =>
      rw [List.map_cons]
      by_cases hp : p.1 = k
      · rw [if_pos hp, lookupLoc]
        rw [if_pos rfl]
      · rw [if_neg hp, lookupLoc, if_neg hp]
        rw [lookupLoc, if_neg hp] at hf
        exact ih hf
  · rw [if_neg hf]
    induction m with
    | nil =>
      rw [List.nil_append, lookupLoc]
      rw [if_pos rfl]
    | cons p m ih =>
      by_cases hp : p.1 = k
      · rw [lookupLoc, if_pos hp] at hf
        simp at hf
      · rw [List.cons_append, lookupLoc, if_neg hp]
        rw [lookupLoc, if_neg hp] at hf
        exact ih hf

theorem lookupLoc_insertLoc_isSome (m : List (String × VisitedLocation)) (k q : String)
    (v : VisitedLocation) (h : (lookupLoc m q).isSome) :
    (lookupLoc (insertLoc m k v) q).isSome := by
  by_cases hkq : q = k
  · subst hkq
    rw [lookupLoc_insertLoc_self]
    rfl
  · unfold insertLoc
    by_cases hf : (lookupLoc m k).isSome
    · rw [if_pos hf, lookupLoc_map_overwrite m k q v hkq]
      exact h
    · rw [if_neg hf, lookupLoc_append_left m _ q h]
      exact h

theorem generateInitialGameWorld_location_ne (settings : GameSettings)
    (t1 t2 : SvcResult) (h : settings.startLocation ≠ "") :
    (generateInitialGameWorld settings t1 t2).location ≠ "" := by
  have hmap : ∀ r : SvcResult, ∀ g : GameResponse, tierDecode settings r = some g →
      g.location ≠ "" := by
    intro r g hg
    cases r with
    | error e => simp [tierDecode] at hg
    | ok t =>
      rw [tierDecode] at hg
      cases hp : decodeReplyText t with
      | none => rw [hp] at hg; exact absurd hg (by simp)
      | some parsed =>
        rw [hp] at hg
        have : g = mapParsedResponse parsed settings := by
          exact (Option.some.injEq _ _ ▸ hg).symm
        rw [this]
        exact jsOr_ne _ _ h
  unfold generateInitialGameWorld
  cases h1 : tierDecode settings t1 with
  | some g => exact hmap t1 g h1
  | none =>
    cases h2 : tierDecode settings t2 with
    | some g => exact hmap t2 g h2
    | none => exact h

end Scumm
namespace Scumm

def wSettings : GameSettings := ⟨"w", "Bilbao", "pixel", "obj", "tone"⟩

/-- An image oracle on which every request fails. -/
def wOracleFail : ImageOracle := fun _ _ => none

/-- An image oracle on which every request succeeds with fixed bytes. -/
def wOracleNew : ImageOracle := fun _ _ => some "NEW"

/-- A small mid-session state used by the concrete witnesses. -/
def wState : GameState :=
  { settings := wSettings, location := "plaza", narrative := "n",
    inventory := [⟨"Mapa", "d"⟩], availableExits := ["Norte"],
    visualDescription := "vd", imageUrl := some "data:OLD",
    loadingStatus := none, history := [⟨.model, "h0"⟩],
    knownLocations := [("plaza", ⟨"data:OLD", "vd"⟩), ("taberna", ⟨"IMG", "CACHED"⟩)] }

def busyState : GameState := { wState with loadingStatus := some "X" }

def rHitW : GameResponse := ⟨"nar", " Taberna ", "NEWVP", [], [], [], true⟩

/-- C1 (amended): the gate is JavaScript truthiness on both sides: while
loadingStatus holds a non-empty string, or the action is empty or
whitespace only after trimming, handleAction is a no-op returning the
state unchanged, appending no history entry and calling neither the
gameplay endpoint nor image generation. A present but empty loadingStatus
is falsy and does not gate, though the program only ever stores an absent
status or a non-empty phase string. -/
theorem busy_or_blank_gate_noop (s : GameState) (action : String) (svc : SvcResult)
    (img : ImageOracle) (h : statusTruthy s.loadingStatus = true ∨ jsTrim action = "") :
    handleAction s action svc img = ⟨s, false, 0⟩ := by
  unfold handleAction
  rw [if_pos h]

theorem busy_or_blank_gate_noop_witness :
    (statusTruthy busyState.loadingStatus = true ∨ jsTrim "go" = "") ∧
    handleAction busyState "go" (Except.ok (some "x")) wOracleNew = ⟨busyState, false, 0⟩ :=
  ⟨Or.inl (by decide),
   busy_or_blank_gate_noop busyState "go" (Except.ok (some "x")) wOracleNew
     (Or.inl (by decide))⟩

/-- A state whose loadingStatus is present but the empty string. -/
def emptyStatusState : GameState := { wState with loadingStatus := some "" }

/-- C1 counterexample: a present but empty loadingStatus is falsy in the
source gate, so the turn runs: the service is called and history changes,
refuting the claim that any non-null loadingStatus makes handleAction a
no-op. -/
theorem empty_loading_status_does_not_gate :
    emptyStatusState.loadingStatus ≠ none ∧
    (handleAction emptyStatusState "mirar" (Except.error ()) wOracleNew).turnCalled = true ∧
    (handleAction emptyStatusState "mirar" (Except.error ()) wOracleNew).state.history ≠
      emptyStatusState.history := by
  decide

/-- C2 (amended): on a reply whose location differs from the current one
and whose normalized key is cached, the transition reuses the cached image
as the new imageUrl and makes no image-generation call; the committed
visual description, however, is the reply visual prompt, not the cached
visual description. -/
theorem cache_hit_reuses_image (s : GameState) (action : String) (r : GameResponse)
    (img : ImageOracle) (cached : VisitedLocation)
    (hloc : r.location ≠ s.location)
    (hhit : lookupLoc s.knownLocations (normalizeLocKey (jsOr r.location "unknown")) =
      some cached) :
    (applyTurn s action r img).state.imageUrl = some cached.imageUrl ∧
    (applyTurn s action r img).imageGenCalls = 0 ∧
    (applyTurn s action r img).state.visualDescription = r.visualPrompt := by
  unfold applyTurn
  dsimp only
  rw [if_pos hloc, hhit]
  exact ⟨rfl, rfl, rfl⟩

theorem cache_hit_reuses_image_witness :
    (rHitW.location ≠ wState.location) ∧
    (applyTurn wState "ir" rHitW wOracleNew).state.imageUrl = some "IMG" ∧
    (applyTurn wState "ir" rHitW wOracleNew).imageGenCalls = 0 :=
  ⟨by decide,
   (cache_hit_reuses_image wState "ir" rHitW wOracleNew ⟨"IMG", "CACHED"⟩ (by decide)
     (by decide)).1,
   (cache_hit_reuses_image wState "ir" rHitW wOracleNew ⟨"IMG", "CACHED"⟩ (by decide)
     (by decide)).2.1⟩

/-- C2 counterexample: a concrete cache hit whose committed visual
description is the reply visual prompt rather than the stored cache
visual description, refuting the claim that the cached visual description
is reused. -/
theorem cache_hit_discards_cached_description :
    lookupLoc wState.knownLocations (normalizeLocKey (jsOr rHitW.location "unknown")) =
      some ⟨"IMG", "CACHED"⟩ ∧
    (applyTurn wState "ir" rHitW wOracleNew).state.visualDescription = "NEWVP" ∧
    ("NEWVP" : String) ≠ "CACHED" := by decide

/-- C3 (amended): every sanitized inventory item has a non-empty name of at
most 22 characters containing no underscore; Key_v2_a1b2c3d4 sanitizes to
Key; and the success commit stores exactly the sanitized reply inventory,
so committed entries satisfy the same bounds. The no-hex and no-version
clauses of the original claim do not hold: earlier removals can abut
surviving fragments into new artifact-shaped tokens. -/
theorem sanitizeInventory_display_bounds (items : List InventoryItem)
    (it : InventoryItem) (h : it ∈ sanitizeInventory items)
    (s : GameState) (action : String) (r : GameResponse) (img : ImageOracle) :
    (it.name ≠ "" ∧ it.name.length ≤ 22 ∧ '_' ∉ it.name.data) ∧
    sanitizeInventory [⟨"Key_v2_a1b2c3d4", "d"⟩] = [⟨"Key", "d"⟩] ∧
    (applyTurn s action r img).state.inventory = sanitizeInventory r.inventory := by
  refine ⟨mem_sanitizeInventory_props items it h, by rfl, rfl⟩

theorem sanitizeInventory_display_bounds_witness :
    (⟨"A b", defaultDescription⟩ : InventoryItem) ∈ sanitizeInventory [⟨"a_b", ""⟩] ∧
    ("A b" : String) ≠ "" ∧ ("A b" : String).length ≤ 22 ∧ '_' ∉ ("A b" : String).data := by
  have h := (sanitizeInventory_display_bounds [⟨"a_b", ""⟩] ⟨"A b", defaultDescription⟩
    (by decide) wState "x" rHitW wOracleNew).1
  exact ⟨by decide, h.1, h.2.1, h.2.2⟩

/-- C3 counterexample: sanitizing abcdx86abcd and xx8686 leaves the names
Abcdabcd, an eight-character all-hexadecimal word the hex pass itself would
remove, and X86, a version token the version pass itself would remove, so
the no-hex-token and no-version-token clauses fail on the output. -/
theorem sanitizeInventory_creates_artifacts :
    (sanitizeInventory [⟨"abcdx86abcd", "d"⟩, ⟨"xx8686", "d"⟩]).map InventoryItem.name =
      ["Abcdabcd", "X86"] ∧
    remHex "Abcdabcd".data ≠ "Abcdabcd".data ∧
    remVer "X86".data ≠ "X86".data := by decide

end Scumm
namespace Scumm

theorem jsOr_self (a : String) : jsOr a a = a := by
  unfold jsOr
  exact ite_self a

/-- Evaluation of the success branch on the soft-error reply: everything is
re-committed from the current state with the glitch narrative. -/
theorem applyTurn_softError (s : GameState) (action : String) (img : ImageOracle) :
    applyTurn s action (softErrorResponse s) img =
      { state :=
        { settings := s.settings,
          location := s.location,
          narrative := glitchNarrative,
          inventory := sanitizeInventory s.inventory,
          availableExits := s.availableExits,
          visualDescription := s.visualDescription,
          imageUrl := s.imageUrl,
          loadingStatus := none,
          history :=
            if 20 < (s.history ++
                ([⟨Role.user, action⟩, ⟨Role.model, glitchNarrative⟩] : List HistoryEntry)).length
            then (s.history ++
              ([⟨Role.user, action⟩, ⟨Role.model, glitchNarrative⟩] : List HistoryEntry)).drop 5
            else s.history ++
              ([⟨Role.user, action⟩, ⟨Role.model, glitchNarrative⟩] : List HistoryEntry),
          knownLocations :=
            insertLoc s.knownLocations (normalizeLocKey (jsOr s.location "unknown"))
              ⟨s.imageUrl.getD "", s.visualDescription⟩ },
        turnCalled := true,
        imageGenCalls := 0 } := by
  unfold applyTurn
  dsimp only [softErrorResponse, optimisticState, glitchNarrative]
  rw [if_neg (fun h => h rfl)]
  rw [if_neg (by decide : ¬ ((false : Bool) = true))]
  rw [jsOr_self]
  simp only [List.append_assoc]
  rfl

/-- C4 (amended): with the gate open, an undecodable reply commits a soft
failure that keeps location, exits, visual description and image
unchanged, substitutes the fixed glitch narrative, re-sanitizes the
current inventory, upserts the cache entry of the current location with
the current image and description, appends the glitch narrative after the
retained user action, and clears loadingStatus; a rejected call keeps
every field except the narrative and clears loadingStatus. In neither
path is the session left with an in-flight marker. The strictly-unchanged
inventory and knownLocations clauses of the original claim do not hold. -/
theorem soft_failure_commits (s : GameState) (action : String) (t : Option String)
    (img : ImageOracle)
    (hidle : s.loadingStatus = none) (hact : jsTrim action ≠ "")
    (hdec : decodeReplyText t = none) :
    ((handleAction s action (Except.ok t) img).state.location = s.location ∧
     (handleAction s action (Except.ok t) img).state.availableExits = s.availableExits ∧
     (handleAction s action (Except.ok t) img).state.visualDescription = s.visualDescription ∧
     (handleAction s action (Except.ok t) img).state.imageUrl = s.imageUrl ∧
     (handleAction s action (Except.ok t) img).state.narrative = glitchNarrative ∧
     (handleAction s action (Except.ok t) img).state.inventory = sanitizeInventory s.inventory ∧
     (handleAction s action (Except.ok t) img).state.knownLocations =
       insertLoc s.knownLocations (normalizeLocKey (jsOr s.location "unknown"))
         ⟨s.imageUrl.getD "", s.visualDescription⟩ ∧
     (handleAction s action (Except.ok t) img).state.loadingStatus = none ∧
     (handleAction s action (Except.ok t) img).imageGenCalls = 0 ∧
     (handleAction s action (Except.ok t) img).state.history =
       (if 20 < (s.history ++
            ([⟨Role.user, action⟩, ⟨Role.model, glitchNarrative⟩] : List HistoryEntry)).length
        then (s.history ++
          ([⟨Role.user, action⟩, ⟨Role.model, glitchNarrative⟩] : List HistoryEntry)).drop 5
        else s.history ++
          ([⟨Role.user, action⟩, ⟨Role.model, glitchNarrative⟩] : List HistoryEntry))) ∧
    handleAction s action (Except.error ()) img =
      TurnOutcome.mk
        { s with history := s.history ++ ([⟨Role.user, action⟩] : List HistoryEntry),
                 narrative := overloadNarrative, loadingStatus := none } true 0 := by
  have hgate : ¬ (statusTruthy s.loadingStatus = true ∨ jsTrim action = "") := by
    rintro (h | h)
    · rw [hidle] at h
      exact absurd h (by decide)
    · exact hact h
  have h1 : handleAction s action (Except.ok t) img =
      applyTurn s action (softErrorResponse s) img := by
    unfold handleAction
    rw [if_neg hgate]
    have hresp : generateGameResponse s (Except.ok t) = Except.ok (softErrorResponse s) := by
      unfold generateGameResponse
      dsimp only
      rw [hdec]
    rw [hresp]
  rw [h1, applyTurn_softError]
  refine ⟨⟨rfl, rfl, rfl, rfl, rfl, rfl, rfl, rfl, rfl, rfl⟩, ?_⟩
  unfold handleAction
  rw [if_neg hgate]
  rfl

theorem soft_failure_commits_witness :
    wState.loadingStatus = none ∧ jsTrim "mirar" ≠ "" ∧
    decodeReplyText (some "garbage") = none ∧
    (handleAction wState "mirar" (Except.ok (some "garbage")) wOracleNew).state.narrative =
      glitchNarrative := by
  refine ⟨rfl, by decide, by rfl, ?_⟩
  exact (soft_failure_commits wState "mirar" (some "garbage") wOracleNew rfl (by decide)
    (by rfl)).1.2.2.2.2.1

/-- C4 counterexample: a decode failure does not leave the inventory
unchanged from the pre-turn state: the committed inventory is re-sanitized,
and the name Abcdabcd, itself a possible sanitizer output, collapses to the
placeholder on the second pass. -/
theorem soft_failure_changes_inventory :
    (handleAction { wState with inventory := [⟨"Abcdabcd", "d"⟩] } "mirar"
      (Except.ok (some "garbage")) wOracleNew).state.inventory ≠ [⟨"Abcdabcd", "d"⟩] := by
  decide

/-- C5: world initialization is total and tiered: it never propagates a
failure (it returns a GameResponse for every pair of tier outcomes); when
the high tier fails, by rejection or by a reply still undecodable after
repair, the decoded fast-tier reply is used; and when both tiers fail the
minimal world synthesized from the settings alone is returned, with the
fixed template narrative, the configured start location, and empty
inventory and exit lists. -/
theorem worldInit_tiered_fallback (settings : GameSettings) (t1 t2 : SvcResult)
    (h1 : tierDecode settings t1 = none) :
    (∀ g : GameResponse, tierDecode settings t2 = some g →
      generateInitialGameWorld settings t1 t2 = g) ∧
    (tierDecode settings t2 = none →
      generateInitialGameWorld settings t1 t2 = fallbackWorld settings ∧
      (generateInitialGameWorld settings t1 t2).location = settings.startLocation ∧
      (generateInitialGameWorld settings t1 t2).inventory = [] ∧
      (generateInitialGameWorld settings t1 t2).availableExits = []) := by
  constructor
  · intro g h2
    unfold generateInitialGameWorld
    rw [h1, h2]
  · intro h2
    have heq : generateInitialGameWorld settings t1 t2 = fallbackWorld settings := by
      unfold generateInitialGameWorld
      rw [h1, h2]
    refine ⟨heq, ?_, ?_, ?_⟩
    · rw [heq]
      rfl
    · rw [heq]
      rfl
    · rw [heq]
      rfl

theorem worldInit_tiered_fallback_witness :
    tierDecode wSettings (Except.error ()) = none ∧
    tierDecode wSettings (Except.ok (some "junk")) = none ∧
    generateInitialGameWorld wSettings (Except.error ()) (Except.ok (some "junk")) =
      fallbackWorld wSettings := by
  refine ⟨rfl, by rfl, ?_⟩
  exact ((worldInit_tiered_fallback wSettings (Except.error ())
    (Except.ok (some "junk")) rfl).2 (by rfl)).1

/-- C6: the reply text truncated inside a string value is repaired to a
document whose narrative is exactly Hello: the brace-substring step leaves
the text unchanged because no closing brace exists, the direct parse and
the first two structural repairs fail, and the close-string-then-brace
attempt parses, so no unescaped trailing artifact survives and nothing is
thrown. -/
theorem truncated_narrative_repaired :
    tryParseJSON (cleanJsonOutput "\x7b\"narrative\":\"Hello") =
      some (Json.obj [("narrative", Json.str "Hello")]) := by rfl

end Scumm
namespace Scumm

theorem jsOr_of_ne (a d : String) (h : a ≠ "") : jsOr a d = a := by
  unfold jsOr
  exact if_neg h

def rSameW : GameResponse := ⟨"nar", "plaza", "vp2", [], [], [], true⟩

def rNewW : GameResponse := ⟨"nar", "Cueva", "vpc", [], [], [], true⟩

def rStayW : GameResponse := ⟨"nar", "Cueva", "vp4", [], [], [], true⟩

/-- A state sitting in a location whose cache entry holds the empty image. -/
def caveState : GameState :=
  { wState with
    location := "Cueva",
    imageUrl := some "",
    knownLocations := [("cueva", ⟨"", "vpc"⟩)] }

/-- The same session after moving elsewhere, the empty entry still cached. -/
def backState : GameState := { caveState with location := "plaza" }

def longHistState : GameState :=
  { wState with
    history := List.replicate 20 (⟨Role.user, "h"⟩ : HistoryEntry) }

/-- C7 (amended): a successful commit rebuilds history as the pre-turn
history plus the user action and the reply narrative, dropping a block of
five from the front exactly when the total exceeds twenty entries, so the
survivors are a suffix in their original order and the committed length is
at most the larger of twenty and three less than the pre-turn length; the
failure path appends the user action without pruning, so the bound is not
unconditional across turns. -/
theorem history_block_pruning (s : GameState) (action : String) (r : GameResponse)
    (img : ImageOracle) :
    (applyTurn s action r img).state.history =
      (if 20 < (s.history ++
          ([⟨Role.user, action⟩, ⟨Role.model, r.narrative⟩] : List HistoryEntry)).length
       then (s.history ++
         ([⟨Role.user, action⟩, ⟨Role.model, r.narrative⟩] : List HistoryEntry)).drop 5
       else s.history ++
         ([⟨Role.user, action⟩, ⟨Role.model, r.narrative⟩] : List HistoryEntry)) ∧
    (applyTurn s action r img).state.history.length ≤ max (s.history.length - 3) 20 := by
  have hh : (applyTurn s action r img).state.history =
      (if 20 < (s.history ++
          ([⟨Role.user, action⟩, ⟨Role.model, r.narrative⟩] : List HistoryEntry)).length
       then (s.history ++
         ([⟨Role.user, action⟩, ⟨Role.model, r.narrative⟩] : List HistoryEntry)).drop 5
       else s.history ++
         ([⟨Role.user, action⟩, ⟨Role.model, r.narrative⟩] : List HistoryEntry)) := by
    unfold applyTurn
    dsimp only [optimisticState]
    rw [List.append_assoc]
    rfl
  refine ⟨hh, ?_⟩
  rw [hh]
  by_cases hl : 20 < (s.history ++
      ([⟨Role.user, action⟩, ⟨Role.model, r.narrative⟩] : List HistoryEntry)).length
  · rw [if_pos hl]
    rw [List.length_drop, List.length_append]
    rw [List.length_append] at hl
    simp only [List.length_cons, List.length_nil] at hl ⊢
    omega
  · rw [if_neg hl]
    rw [List.length_append] at hl ⊢
    simp only [List.length_cons, List.length_nil] at hl ⊢
    omega

/-- C7 counterexample: a failed turn from a reachable twenty-entry history
commits twenty-one entries, exceeding the retention bound. -/
theorem history_bound_exceeded_on_failure :
    20 < (handleAction longHistState "x" (Except.error ()) wOracleNew).state.history.length := by
  decide

/-- C8: knownLocations covers the committed location: a started session
maps the normalized reported location, which cannot be empty when the
guarded inputs are non-empty, and a success commit re-establishes the
invariant, directly when the reply names a location and from the pre-turn
invariant when the reply location is empty. -/
theorem knownLocations_covers_location
    (iw il sty io itn : String) (t1 t2 : SvcResult) (img : ImageOracle) (s0 : GameState)
    (hil : il ≠ "") (hsty : sty ≠ "")
    (s : GameState) (action : String) (r : GameResponse) (img2 : ImageOracle)
    (hinv : (lookupLoc s.knownLocations (normalizeLocKey s.location)).isSome ∨
      r.location ≠ "") :
    (lookupLoc (handleStartGame iw il sty io itn t1 t2 img s0).knownLocations
      (normalizeLocKey (handleStartGame iw il sty io itn t1 t2 img s0).location)).isSome ∧
    (lookupLoc (applyTurn s action r img2).state.knownLocations
      (normalizeLocKey (applyTurn s action r img2).state.location)).isSome := by
  constructor
  · unfold handleStartGame
    rw [if_neg (by rintro (h | h) <;> [exact hil h; exact hsty h])]
    dsimp only
    have hl : (generateInitialGameWorld ⟨iw, il, sty, io, itn⟩ t1 t2).location ≠ "" :=
      generateInitialGameWorld_location_ne ⟨iw, il, sty, io, itn⟩ t1 t2 hil
    rw [jsOr_of_ne _ _ hl, jsOr_of_ne _ _ hl]
    rw [lookupLoc, if_pos rfl]
    rfl
  · unfold applyTurn
    dsimp only [optimisticState]
    by_cases hr : r.location = ""
    · have h1 : jsOr r.location s.location = s.location := by
        rw [hr]
        unfold jsOr
        rw [if_pos rfl]
      rw [h1]
      rcases hinv with hinv | hinv
      · exact lookupLoc_insertLoc_isSome _ _ _ _ hinv
      · exact absurd hr hinv
    · rw [jsOr_of_ne _ _ hr, jsOr_of_ne _ _ hr]
      rw [lookupLoc_insertLoc_self]
      rfl

theorem knownLocations_covers_location_witness :
    (lookupLoc (handleStartGame "w" "Bilbao" "pixel" "o" "t" (Except.error ())
        (Except.error ()) wOracleFail wState).knownLocations
      (normalizeLocKey (handleStartGame "w" "Bilbao" "pixel" "o" "t" (Except.error ())
        (Except.error ()) wOracleFail wState).location)).isSome ∧
    (lookupLoc (applyTurn wState "ir" rHitW wOracleNew).state.knownLocations
      (normalizeLocKey (applyTurn wState "ir" rHitW wOracleNew).state.location)).isSome :=
  knownLocations_covers_location "w" "Bilbao" "pixel" "o" "t" (Except.error ())
    (Except.error ()) wOracleFail wState (by decide) (by decide) wState "ir" rHitW
    wOracleNew (Or.inr (by decide))

/-- C9 (amended): image generation never throws and never fails the turn:
the cascade tries the full prompt with the optional reference, then the
simplified prompt with no reference, and returns the empty string when
both requests fail; a same-location visual-change commit whose attempts
all fail still clears loadingStatus and commits the reply narrative, with
the empty string, not the kept previous image, as the committed imageUrl. -/
theorem image_failure_cascade (vp style : String) (ke : List String) (ref : Option String)
    (oracle : ImageOracle)
    (hfull : oracle (fullImagePrompt vp style ke) (ref.map cleanBase64) = none)
    (s : GameState) (action : String) (r : GameResponse)
    (hloc : r.location = s.location) (hvc : r.visualChanged = true)
    (himg : ∀ p rr, oracle p rr = none) :
    (oracle (simpleImagePrompt vp style) none = none →
      generateSceneImage vp style ke ref oracle = "") ∧
    (∀ b, oracle (simpleImagePrompt vp style) none = some b →
      generateSceneImage vp style ke ref oracle = imagePrefixStr ++ b) ∧
    ((applyTurn s action r oracle).state.loadingStatus = none ∧
     (applyTurn s action r oracle).state.narrative = r.narrative ∧
     (applyTurn s action r oracle).state.imageUrl = some "") := by
  have hgen : ∀ (vp2 st2 : String) (ke2 : List String) (rf2 : Option String),
      generateSceneImage vp2 st2 ke2 rf2 oracle = "" := by
    intro vp2 st2 ke2 rf2
    unfold generateSceneImage
    rw [himg, himg]
  refine ⟨?_, ?_, ?_⟩
  · intro h2
    unfold generateSceneImage
    rw [hfull, h2]
  · intro b h2
    unfold generateSceneImage
    rw [hfull, h2]
  · unfold applyTurn
    dsimp only
    rw [if_neg (fun h => h hloc), if_pos hvc, hgen]
    exact ⟨rfl, rfl, rfl⟩

theorem image_failure_cascade_witness :
    generateSceneImage "vp2" "pixel" [] (some "data:OLD") wOracleFail = "" ∧
    (applyTurn wState "usar" rSameW wOracleFail).state.loadingStatus = none ∧
    (applyTurn wState "usar" rSameW wOracleFail).state.imageUrl = some "" := by
  have h := image_failure_cascade "vp2" "pixel" [] (some "data:OLD") wOracleFail rfl
    wState "usar" rSameW rfl rfl (fun _ _ => rfl)
  exact ⟨h.1 rfl, h.2.2.1, h.2.2.2.2⟩

/-- C9 counterexample: with a previous image present and every generation
attempt failing on a same-location visual change, the committed imageUrl
is the empty string; the previous image is not kept. -/
theorem image_failure_loses_previous_image :
    (applyTurn wState "usar" rSameW wOracleFail).state.imageUrl = some "" ∧
    wState.imageUrl = some "data:OLD" ∧
    (applyTurn wState "usar" rSameW wOracleFail).state.imageUrl ≠ wState.imageUrl := by
  decide

/-- C10 (amended): when every attempt fails for an uncached location, the
empty string is returned and committed both as the state imageUrl and as
the imageUrl of the new cache entry, and a later transition reporting that
location from a different current location is a cache hit that reuses the
stored empty image with no generation attempt; a reply naming the current
location with the visual-changed flag, however, does attempt generation. -/
theorem empty_image_cached_on_total_failure
    (s : GameState) (action : String) (r : GameResponse) (oracle : ImageOracle)
    (hloc : r.location ≠ s.location)
    (hmiss : lookupLoc s.knownLocations (normalizeLocKey (jsOr r.location "unknown")) = none)
    (hfail : ∀ p rr, oracle p rr = none)
    (s2 : GameState) (action2 : String) (r2 : GameResponse) (img2 : ImageOracle)
    (e : VisitedLocation)
    (hloc2 : r2.location ≠ s2.location)
    (hhit2 : lookupLoc s2.knownLocations (normalizeLocKey (jsOr r2.location "unknown")) =
      some e)
    (hempty : e.imageUrl = "") :
    ((applyTurn s action r oracle).state.imageUrl = some "" ∧
     lookupLoc (applyTurn s action r oracle).state.knownLocations
       (normalizeLocKey (jsOr r.location "unknown")) = some ⟨"", r.visualPrompt⟩ ∧
     (applyTurn s action r oracle).imageGenCalls = 1) ∧
    ((applyTurn s2 action2 r2 img2).state.imageUrl = some e.imageUrl ∧
     (applyTurn s2 action2 r2 img2).state.imageUrl = some "" ∧
     (applyTurn s2 action2 r2 img2).imageGenCalls = 0) := by
  have hgen : ∀ (vp2 st2 : String) (ke2 : List String) (rf2 : Option String),
      generateSceneImage vp2 st2 ke2 rf2 oracle = "" := by
    intro vp2 st2 ke2 rf2
    unfold generateSceneImage
    rw [hfail, hfail]
  constructor
  · unfold applyTurn
    dsimp only [optimisticState]
    rw [if_pos hloc, hmiss, hgen]
    refine ⟨rfl, ?_, rfl⟩
    rw [lookupLoc_insertLoc_self]
    rfl
  · unfold applyTurn
    dsimp only [optimisticState]
    rw [if_pos hloc2, hhit2]
    refine ⟨rfl, ?_, rfl⟩
    show some e.imageUrl = some ""
    rw [hempty]

theorem empty_image_cached_on_total_failure_witness :
    ((applyTurn wState "ir" rNewW wOracleFail).state.imageUrl = some "" ∧
     lookupLoc (applyTurn wState "ir" rNewW wOracleFail).state.knownLocations
       (normalizeLocKey (jsOr rNewW.location "unknown")) = some ⟨"", rNewW.visualPrompt⟩ ∧
     (applyTurn wState "ir" rNewW wOracleFail).imageGenCalls = 1) ∧
    ((applyTurn backState "volver" rStayW wOracleNew).state.imageUrl = some "" ∧
     (applyTurn backState "volver" rStayW wOracleNew).imageGenCalls = 0) := by
  have h := empty_image_cached_on_total_failure wState "ir" rNewW wOracleFail (by decide)
    (by decide) (fun _ _ => rfl) backState "volver" rStayW wOracleNew ⟨"", "vpc"⟩
    (by decide) (by decide) rfl
  exact ⟨h.1, h.2.2.1, h.2.2.2⟩

/-- C10 counterexample: with the empty image cached for the current
location, a reply naming that same location with the visual-changed flag
performs a new generation attempt and commits its result, so not every
later transition reporting the location is a no-generation cache hit on
the stored empty image. -/
theorem empty_image_regenerated_on_same_location :
    (applyTurn caveState "usar" rStayW wOracleNew).imageGenCalls = 1 ∧
    (applyTurn caveState "usar" rStayW wOracleNew).state.imageUrl =
      some "data:image/png;base64,NEW" := by
  decide

end Scumm
